import Mathlib

/-!
Verification of the upm Python backend, package guesser and content-hash
store against their natural-language specification.  Strings are modelled
as lists of Unicode code points (`Str`), Go maps as association lists or
functions, and the file system as a function from path to optional file
content.
-/

/-- Strings are modelled as lists of Unicode code points. -/
abbrev Str := List Nat

/-- Converts a Lean string literal to its code-point list model. -/
def str (s : String) : Str := s.toList.map Char.toNat

/-- ASCII lower-casing of one code point, modelling `strings.ToLower`
(package and module names in this code base are ASCII). -/
def lowerCP (n : Nat) : Nat := if 65 ≤ n ∧ n ≤ 90 then n + 32 else n

/-- Lower-cases a whole string, modelling `strings.ToLower`. -/
def lowerStr (s : Str) : Str := s.map lowerCP

/-- Models `strings.Replace(s, a, b, -1)` for one-character `a`, `b`:
every occurrence of code point `a` becomes `b`. -/
def replaceAll (a b : Nat) (s : Str) : Str := s.map (fun c => if c = a then b else c)

/-- `normalizePackageName` from `python.go`: lower-case, then replace
every underscore (95) with a hyphen (45). -/
def normalizePackageName (name : Str) : Str := replaceAll 95 45 (lowerStr name)

/-! ## Content-hash store (`store.go`)

The `store` struct itself, `hashFile` and the JSON layer are not among the
sources; they are modelled from the spec as noted on each definition. -/

/-- Modelled from the spec: `StoreRecord` holds the two content digests of
the last observed specfile and lockfile; the struct declaration itself is
not among the sources, only its uses in `readStore`/`writeStore`/
`updateStoreHashes`. -/
structure store where
  specfileHash : Str
  lockfileHash : Str
deriving DecidableEq

/-- Modelled from the spec: file content is either raw bytes or the
structured store document; the JSON (de)serialization layer
(`json.MarshalIndent` / `json.Unmarshal` on the store struct) is not among
the sources, so serialization is modelled as the `storeDoc` constructor
and parsing as its partial inverse (parsing raw non-document bytes as a
store fails). -/
inductive content where
  | raw (bytes : Str)
  | storeDoc (rec : store)
deriving DecidableEq

/-- The file system: a map from path to optional file content. -/
abbrev FS := Str → Option content

/-- `getStoreLocation`: the `UPM_STORE` environment override if set,
otherwise the fixed default path. -/
def getStoreLocation (env : Option Str) : Str :=
  match env with
  | some loc => loc
  | none => str (".upm/store.json")

/-- `readStore`: a missing file yields the zero-value record; a file that
does not parse as a store document is a fatal error. -/
def readStore (env : Option Str) (fs : FS) : Except String store :=
  match fs (getStoreLocation env) with
  | none => Except.ok ⟨[], []⟩
  | some (content.storeDoc r) => Except.ok r
  | some (content.raw _) => Except.error ("store unmarshal failed")

/-- `writeStore`: serializes the record to the store location, creating
parent directories as needed (directory creation and `filepath.Abs` are
modelled as succeeding identity operations). -/
def writeStore (env : Option Str) (fs : FS) (st : store) : FS :=
  fun p => if p = getStoreLocation env then some (content.storeDoc st) else fs p

/-- Modelled from the spec: an opaque content digest (`hashFile`'s hashing
of existing file bytes is not among the sources).  Injective and never
empty, like a real hex digest. -/
def hashContent (c : content) : Str :=
  match c with
  | content.raw b => 35 :: b
  | content.storeDoc r => 35 :: (r.specfileHash ++ r.lockfileHash)

/-- Modelled from the spec: `hashFile` returns the empty string for a
missing file and the content digest otherwise. -/
def hashFile (fs : FS) (p : Str) : Str :=
  match fs p with
  | none => []
  | some c => hashContent c

/-- `updateStoreHashes`: read the record, recompute both hashes, die if
either target file is missing, otherwise write the record back.  The
result is the final file system paired with the fatal diagnostic, if any
(`die` aborts before any write). -/
def updateStoreHashes (env : Option Str) (fs : FS) (specfile lockfile : Str) :
    FS × Option String :=
  match readStore env fs with
  | Except.error e => (fs, some e)
  | Except.ok st =>
    let st2 : store := { st with
      specfileHash := hashFile fs specfile
      lockfileHash := hashFile fs lockfile }
    if st2.specfileHash = [] then (fs, some ("file does not exist: specfile"))
    else if st2.lockfileHash = [] then (fs, some ("file does not exist: lockfile"))
    else (writeStore env fs st2, none)

/-- Claim C1: writing a `StoreRecord` with `writeStore` to a given store
location and re-reading that location with `readStore` yields a record
whose `specfileHash` and `lockfileHash` fields are byte-identical to the
ones written. -/
theorem c1_store_roundtrip (env : Option Str) (fs : FS) (st : store) :
    ∃ r : store, readStore env (writeStore env fs st) = Except.ok r ∧
      r.specfileHash = st.specfileHash ∧ r.lockfileHash = st.lockfileHash := by
  refine ⟨st, ?_, rfl, rfl⟩
  simp [readStore, writeStore]

/-- Claim C2: `updateStoreHashes` fails fatally whenever the specfile or
the lockfile does not exist, and in that case the persisted store file is
left unchanged (no partial update is written). -/
theorem c2_update_fails_missing (env : Option Str) (fs : FS) (specfile lockfile : Str)
    (h : fs specfile = none ∨ fs lockfile = none) :
    (updateStoreHashes env fs specfile lockfile).2.isSome = true ∧
      (updateStoreHashes env fs specfile lockfile).1 = fs := by
  unfold updateStoreHashes
  cases hrs : readStore env fs with
  | error e => exact ⟨rfl, rfl⟩
  | ok st =>
    rcases h with h | h
    · simp [hashFile, h]
    · cases hsp : fs specfile with
      | none => simp [hashFile, hsp]
      | some c => simp [hashFile, hsp, h, hashContent]; cases c <;> simp

/-- Witness for C2 at a concrete input: the empty file system is missing
both targets, the update reports a fatal error and leaves the file system
untouched. -/
theorem c2_update_fails_missing_witness :
    (updateStoreHashes none (fun _ => none) (str ("pyproject.toml")) (str ("poetry.lock"))).2.isSome
        = true ∧
      (updateStoreHashes none (fun _ => none) (str ("pyproject.toml")) (str ("poetry.lock"))).1
        = (fun _ => none) :=
  c2_update_fails_missing none (fun _ => none) (str ("pyproject.toml")) (str ("poetry.lock"))
    (Or.inl rfl)

/-! ## Package-name normalization (C7) -/

/-- One-character step of `normalizePackageName`: lower-case, then map
underscore to hyphen. -/
def normChar (n : Nat) : Nat := if lowerCP n = 95 then 45 else lowerCP n

theorem normalizePackageName_eq_map (s : Str) :
    normalizePackageName s = s.map normChar := by
  simp [normalizePackageName, replaceAll, lowerStr, List.map_map, normChar, Function.comp]

theorem normChar_idem (n : Nat) : normChar (normChar n) = normChar n := by
  unfold normChar lowerCP
  split_ifs <;> omega

/-- Claim C7: package-name normalization is idempotent and identifies
spellings differing only in letter case or separator character:
`normalize (normalize x) = normalize x` for every `x`, and
`normalize "My_Package" = normalize "my-package"`. -/
theorem c7_normalize_idempotent :
    (∀ x : Str, normalizePackageName (normalizePackageName x) = normalizePackageName x) ∧
      normalizePackageName (str ("My_Package")) = normalizePackageName (str ("my-package")) := by
  constructor
  · intro x
    simp only [normalizePackageName_eq_map, List.map_map]
    exact List.map_congr_left (fun a _ => normChar_idem a)
  · rfl

/-! ## Package guesser (`gen_pypi_map/package_guesser.go`) -/

/-- The Python standard-library module names from `stdlibMods` in
`package_guesser.go` (the full literal map, keys in source order). -/
def stdlibModNames : List String := [
  "__future__", "__main__", "_dummy_thread", "_thread", "abc", "aifc",
  "argparse", "array", "ast", "asynchat", "asyncio", "asyncore",
  "atexit", "audioop", "base64", "bdb", "binascii", "binhex",
  "bisect", "builtins", "bz2", "calendar", "cgi", "cgitb",
  "chunk", "cmath", "cmd", "code", "codecs", "codeop",
  "collections", "colorsys", "compileall", "concurrent", "configparser", "contextlib",
  "contextvars", "copy", "copyreg", "cProfile", "crypt", "csv",
  "ctypes", "curses", "dataclasses", "datetime", "dbm", "decimal",
  "difflib", "dis", "distutils", "doctest", "dummy_threading", "email",
  "encodings", "ensurepip", "enum", "errno", "faulthandler", "fcntl",
  "filecmp", "fileinput", "fnmatch", "formatter", "fractions", "ftplib",
  "functools", "gc", "getopt", "getpass", "gettext", "glob",
  "grp", "gzip", "hashlib", "heapq", "hmac", "html",
  "http", "imaplib", "imghdr", "imp", "importlib", "inspect",
  "io", "ipaddress", "itertools", "json", "keyword", "lib2to3",
  "linecache", "locale", "logging", "lzma", "mailbox", "mailcap",
  "marshal", "math", "mimetypes", "mmap", "modulefinder", "msilib",
  "msvcrt", "multiprocessing", "netrc", "nis", "nntplib", "numbers",
  "operator", "optparse", "os", "ossaudiodev", "parser", "pathlib",
  "pdb", "pickle", "pickletools", "pipes", "pkgutil", "platform",
  "plistlib", "poplib", "posix", "pprint", "profile", "pstats",
  "pty", "pwd", "py_compile", "pyclbr", "pydoc", "queue",
  "quopri", "random", "re", "readline", "reprlib", "resource",
  "rlcompleter", "runpy", "sched", "secrets", "select", "selectors",
  "shelve", "shlex", "shutil", "signal", "site", "smtpd",
  "smtplib", "sndhdr", "socket", "socketserver", "spwd", "sqlite3",
  "ssl", "stat", "statistics", "string", "stringprep", "struct",
  "subprocess", "sunau", "symbol", "symtable", "sys", "sysconfig",
  "syslog", "tabnanny", "tarfile", "telnetlib", "tempfile", "termios",
  "test", "textwrap", "threading", "time", "timeit", "tkinter",
  "token", "tokenize", "trace", "traceback", "tracemalloc", "tty",
  "turtle", "turtledemo", "types", "typing", "unicodedata", "unittest",
  "urllib", "uu", "uuid", "venv", "warnings", "wave",
  "weakref", "webbrowser", "winreg", "winsound", "wsgiref", "xdrlib",
  "xml", "xmlrpc", "zipapp", "zipfile", "zipimport", "zlib"]

/-- `stdlibMods` as a membership test: true exactly on the standard-library
module names. -/
def stdlibMods (m : Str) : Bool := (stdlibModNames.map str).contains m

/-- `PackageInfo` as used by `GuessPackage`: the package name and the
modules it declares (the struct declaration lives elsewhere in
`gen_pypi_map`; these are the two fields `GuessPackage` reads). -/
structure PackageInfo where
  Name : Str
  Modules : List Str
deriving DecidableEq

/-- The selection reason strings returned by `GuessPackage`. -/
def reasonOnlyOne : String := "only one"

def reasonExact : String := "exact name match"

def reasonPopular : String := "5x more popular than next"

/-- The exact-name test inside `GuessPackage`'s loop:
`strings.Replace(strings.ToLower(candidate.Name), "-", "_", -1) ==
strings.ToLower(module)`. -/
def gpMatch (c : PackageInfo) (module : Str) : Bool :=
  replaceAll 45 95 (lowerStr c.Name) == lowerStr module

/-- Insertion step of the descending sort by key (`sort.Slice` with
`downloadStats[a] > downloadStats[b]`). -/
def insertByKey (key : α → Nat) (x : α) : List α → List α
  | [] => [x]
  | y :: ys => if key y < key x then x :: y :: ys else y :: insertByKey key x ys

/-- Sorts a list descending by `key`, modelling `sort.Slice` with the
greater-than comparator (any comparator-respecting order is a valid
outcome of Go's unstable sort; this picks one deterministically). -/
def sortByKey (key : α → Nat) : List α → List α
  | [] => []
  | x :: xs => insertByKey key x (sortByKey key xs)

/-- `GuessPackage` from `package_guesser.go`: stdlib check, empty and
singleton candidate lists, exact-name loop, then the popularity sort with
the floor of 100 and the 5x-per-module ratio gate.  `none` models the
`(PackageInfo{}, "", false)` return; the debug print for module
`"pattern"` has no effect on the result and is omitted. -/
def GuessPackage (module : Str) (packages : List PackageInfo)
    (downloadStats : Str → Nat) : Option (PackageInfo × String) :=
  if stdlibMods module = true then none
  else
    match packages with
    | [] => none
    | [p] => some (p, reasonOnlyOne)
    | _ :: _ :: _ =>
      match packages.find? (fun c => gpMatch c module) with
      | some c => some (c, reasonExact)
      | none =>
        match sortByKey (fun p => downloadStats p.Name) packages with
        | first :: second :: _ =>
          if downloadStats first.Name < 100 then none
          else if downloadStats second.Name * 5 / second.Modules.length
              < downloadStats first.Name / first.Modules.length then
            some (first, reasonPopular)
          else none
        | _ => none

/-- Claim C8: for every module in the standard-library module set,
`GuessPackage` returns no suggestion, whatever the candidates and
download statistics. -/
theorem c8_stdlib_no_suggestion (m : Str) (packages : List PackageInfo)
    (downloadStats : Str → Nat) (h : stdlibMods m = true) :
    GuessPackage m packages downloadStats = none := by
  simp [GuessPackage, h]

/-- Witness for C8 at a concrete input: module `os` with a candidate
claiming to provide it still gets no suggestion. -/
theorem c8_stdlib_no_suggestion_witness :
    GuessPackage (str ("os")) [⟨str ("os"), [str ("os")]⟩] (fun _ => 1000000) = none :=
  c8_stdlib_no_suggestion (str ("os")) [⟨str ("os"), [str ("os")]⟩] (fun _ => 1000000)
    (by decide)

/-! ## Claim C3: singleton candidate lists -/

/-- Counterexample to C3 as stated: the claim asserts that a singleton
candidate list is always selected with no further precondition on the
module, but for the standard-library module `os` the stdlib check runs
first and `GuessPackage` returns no suggestion. -/
theorem c3_single_candidate_counterexample :
    ([(⟨str ("os2"), [str ("os")]⟩ : PackageInfo)].length = 1) ∧
      GuessPackage (str ("os")) [⟨str ("os2"), [str ("os")]⟩] (fun _ => 0) = none := by
  constructor
  · rfl
  · decide

/-- Claim C3 amended: for every module name that is not in the
standard-library module set and every candidate list of length exactly
one, `GuessPackage` selects that single candidate. -/
theorem c3_single_candidate_amended (m : Str) (p : PackageInfo) (downloadStats : Str → Nat)
    (h : stdlibMods m = false) :
    GuessPackage m [p] downloadStats = some (p, reasonOnlyOne) := by
  simp [GuessPackage, h]

/-- Witness for amended C3 at a concrete input. -/
theorem c3_single_candidate_witness :
    GuessPackage (str ("requests")) [⟨str ("requests2"), []⟩] (fun _ => 0)
      = some (⟨str ("requests2"), []⟩, reasonOnlyOne) :=
  c3_single_candidate_amended (str ("requests")) ⟨str ("requests2"), []⟩ (fun _ => 0)
    (by decide)

/-! ## Claim C5: exact name match beats popularity -/

/-- Counterexample to C5 as stated: module `os` has a candidate whose
normalized name equals the normalized module name and a second, more
popular candidate, yet `GuessPackage` returns no suggestion because the
stdlib check precedes the exact-name rule. -/
theorem c5_exact_match_counterexample :
    (normalizePackageName (str ("os")) = normalizePackageName (str ("os")) ∧
      ([(⟨str ("os"), [str ("os")]⟩ : PackageInfo), ⟨str ("big"), [str ("os")]⟩].length) = 2) ∧
      GuessPackage (str ("os")) [⟨str ("os"), [str ("os")]⟩, ⟨str ("big"), [str ("os")]⟩]
        (fun n => if n = str ("big") then 1000000 else 5) = none := by
  refine ⟨⟨rfl, rfl⟩, ?_⟩
  decide

/-- Claim C5 amended: for every module not in the standard-library module
set with two or more candidates, if some candidate passes the code's
exact-name test (candidate name lower-cased with hyphens replaced by
underscores equals the lower-cased module name), then `GuessPackage`
selects the first such candidate, even when another candidate has
strictly higher popularity. -/
theorem c5_exact_match_amended (m : Str) (p q : PackageInfo) (rest : List PackageInfo)
    (downloadStats : Str → Nat) (c : PackageInfo)
    (h : stdlibMods m = false)
    (hfind : (p :: q :: rest).find? (fun c => gpMatch c m) = some c) :
    GuessPackage m (p :: q :: rest) downloadStats = some (c, reasonExact) := by
  simp [GuessPackage, h, hfind]

/-- Witness for amended C5 at a concrete input: candidate `Use-Less`
matches module `use_less` exactly and is selected over a far more popular
candidate. -/
theorem c5_exact_match_witness :
    GuessPackage (str ("use_less")) [⟨str ("popular"), []⟩, ⟨str ("Use-Less"), []⟩]
        (fun n => if n = str ("popular") then 1000000 else 5)
      = some (⟨str ("Use-Less"), []⟩, reasonExact) :=
  c5_exact_match_amended (str ("use_less")) ⟨str ("popular"), []⟩ ⟨str ("Use-Less"), []⟩ []
    (fun n => if n = str ("popular") then 1000000 else 5) ⟨str ("Use-Less"), []⟩
    (by decide) (by decide)

/-! ## Claim C6: popularity-ratio tie-break -/

/-- Counterexample to C6 as stated: with candidates `aaa` (popularity 500,
one module) and `bbb` (popularity 100, one module) and no exact match,
the top normalized popularity (500) exceeds the second (100) by exactly
the multiplier 5, so the claim's "by at least the configured multiplier"
condition holds, yet `GuessPackage` declines because the code requires a
strict `>` between `stats[first]/len(first.Modules)` and
`stats[second]*5/len(second.Modules)`. -/
theorem c6_ratio_counterexample :
    GuessPackage (str ("foo"))
        [⟨str ("aaa"), [str ("m1")]⟩, ⟨str ("bbb"), [str ("m2")]⟩]
        (fun n => if n = str ("aaa") then 500 else 100) = none ∧
      500 / 1 = 5 * (100 / 1) := by
  constructor
  · decide
  · rfl

/-- Claim C6 amended: in the ambiguity tie-break (two or more candidates,
module not in the stdlib set, no exact name match, top popularity at
least 100, both module counts positive so the integer divisions are the
Go ones), the top candidate of the descending sort is selected exactly
when its popularity floor-divided by its declared-module count strictly
exceeds the second candidate's popularity times 5, floor-divided by the
second's declared-module count; in particular, candidates with
popularity 1000 over 2 modules versus 50 over 1 module select the top
(see the witness). -/
theorem c6_ratio_amended (m : Str) (p q : PackageInfo) (rest0 : List PackageInfo)
    (dl : Str → Nat) (first second : PackageInfo) (srest : List PackageInfo)
    (h : stdlibMods m = false)
    (hfind : (p :: q :: rest0).find? (fun c => gpMatch c m) = none)
    (hs : sortByKey (fun x => dl x.Name) (p :: q :: rest0) = first :: second :: srest)
    (hfloor : 100 ≤ dl first.Name)
    (hm1 : 0 < first.Modules.length) (hm2 : 0 < second.Modules.length) :
    GuessPackage m (p :: q :: rest0) dl = some (first, reasonPopular) ↔
      dl second.Name * 5 / second.Modules.length < dl first.Name / first.Modules.length := by
  simp only [GuessPackage, h, Bool.false_eq_true, if_false, hfind, hs]
  rw [if_neg (by omega)]
  split_ifs with hc
  · simp [hc]
  · simp [hc]

/-- Witness for amended C6: the claim's own example, candidates with
popularity 1000 declaring 2 modules versus popularity 50 declaring 1
module, selects the top candidate. -/
theorem c6_ratio_witness :
    GuessPackage (str ("foo"))
        [⟨str ("aaa"), [str ("m1"), str ("m2")]⟩, ⟨str ("bbb"), [str ("m3")]⟩]
        (fun n => if n = str ("aaa") then 1000 else 50)
      = some (⟨str ("aaa"), [str ("m1"), str ("m2")]⟩, reasonPopular) :=
  (c6_ratio_amended (str ("foo")) ⟨str ("aaa"), [str ("m1"), str ("m2")]⟩
      ⟨str ("bbb"), [str ("m3")]⟩ []
      (fun n => if n = str ("aaa") then 1000 else 50)
      ⟨str ("aaa"), [str ("m1"), str ("m2")]⟩ ⟨str ("bbb"), [str ("m3")]⟩ []
      (by decide) (by decide) (by decide) (by decide) (by decide) (by decide)).mpr
    (by decide)

/-! ## Search (`python.go`) and claim C9 -/

/-- `api.PkgInfo` as relevant to `Search`: the registry name used for the
popularity sort plus representative metadata fields (the full struct
lives in `internal/api`, outside these sources). -/
structure PkgInfo where
  Name : Str
  Description : Str
  Version : Str
deriving DecidableEq

/-- All suffixes of a string. -/
def tails : Str → List Str
  | [] => [[]]
  | c :: rest => (c :: rest) :: tails rest

/-- Models `strings.Contains s sub`. -/
def containsSub (s sub : Str) : Bool := (tails s).any (fun t => sub.isPrefixOf t)

/-- The first stage of `Search`: the registry package names containing the
query as a substring (iteration over the `pypiPackageToModules` map). -/
def searchMatches (registry : List Str) (query : Str) : List Str :=
  registry.filter (fun p => containsSub p query)

/-- The final stage of `Search`: sort the collected `PkgInfo`s descending
by download count.  The list argument is the channel-collection order,
i.e. the completion order of the concurrent `Info` lookups, which is an
arbitrary permutation of the matched packages' infos. -/
def searchSort (dl : Str → Nat) (collected : List PkgInfo) : List PkgInfo :=
  sortByKey (fun i => dl i.Name) collected

theorem insertByKey_perm (key : α → Nat) (x : α) (l : List α) :
    List.Perm (insertByKey key x l) (x :: l) := by
  induction l with
  | nil => exact List.Perm.refl _
  | cons y ys ih =>
    unfold insertByKey
    split_ifs
    · exact List.Perm.refl _
    · exact (ih.cons y).trans (List.Perm.swap x y ys)

theorem sortByKey_perm (key : α → Nat) (l : List α) :
    List.Perm (sortByKey key l) l := by
  induction l with
  | nil => exact List.Perm.refl _
  | cons x xs ih => exact (insertByKey_perm key x _).trans (ih.cons x)

theorem sorted_insertByKey (key : α → Nat) (x : α) (l : List α)
    (h : l.Sorted (fun a b => key b ≤ key a)) :
    (insertByKey key x l).Sorted (fun a b => key b ≤ key a) := by
  induction l with
  | nil => simp [insertByKey]
  | cons y ys ih =>
    rw [List.sorted_cons] at h
    obtain ⟨hy, hys⟩ := h
    unfold insertByKey
    split_ifs with hlt
    · rw [List.sorted_cons]
      refine ⟨?_, List.sorted_cons.mpr ⟨hy, hys⟩⟩
      intro b hb
      rcases List.mem_cons.mp hb with rfl | hb2
      · omega
      · exact le_trans (hy b hb2) (by omega)
    · rw [List.sorted_cons]
      refine ⟨?_, ih hys⟩
      intro b hb
      rcases List.mem_cons.mp ((insertByKey_perm key x ys).mem_iff.mp hb) with rfl | hb2
      · omega
      · exact hy b hb2

theorem sortByKey_sorted (key : α → Nat) (l : List α) :
    (sortByKey key l).Sorted (fun a b => key b ≤ key a) := by
  induction l with
  | nil => simp [sortByKey]
  | cons x xs ih => exact sorted_insertByKey key x _ ih

theorem searchSort_eq_of_perm (dl : Str → Nat) (c1 c2 : List PkgInfo)
    (hp : List.Perm c1 c2)
    (hd : c1.Pairwise (fun a b => dl a.Name ≠ dl b.Name)) :
    searchSort dl c1 = searchSort dl c2 := by
  have hsym : ∀ {x y : PkgInfo}, dl x.Name ≠ dl y.Name → dl y.Name ≠ dl x.Name :=
    fun h => Ne.symm h
  have hperm : List.Perm (searchSort dl c1) (searchSort dl c2) :=
    ((sortByKey_perm _ c1).trans hp).trans (sortByKey_perm _ c2).symm
  have hd1 : (searchSort dl c1).Pairwise (fun a b => dl a.Name ≠ dl b.Name) :=
    ((sortByKey_perm (fun i : PkgInfo => dl i.Name) c1).pairwise_iff hsym).mpr hd
  have hd2 : (searchSort dl c2).Pairwise (fun a b => dl a.Name ≠ dl b.Name) :=
    (hperm.pairwise_iff hsym).mp hd1
  have hstrict : ∀ c : List PkgInfo,
      c.Sorted (fun a b => dl b.Name ≤ dl a.Name) →
      c.Pairwise (fun a b => dl a.Name ≠ dl b.Name) →
      c.Sorted (fun a b => dl b.Name < dl a.Name) := by
    intro c hs hne
    exact (hs.and hne).imp (fun hab => lt_of_le_of_ne hab.1 (Ne.symm hab.2))
  haveI : IsAntisymm PkgInfo (fun a b => dl b.Name < dl a.Name) :=
    ⟨fun a b h1 h2 => absurd (h1.trans h2) (lt_irrefl _)⟩
  exact List.eq_of_perm_of_sorted hperm
    (hstrict _ (sortByKey_sorted _ c1) hd1)
    (hstrict _ (sortByKey_sorted _ c2) hd2)

/-- Counterexample to C9 as stated: two matched packages `aa` and `ab`
with equal popularity.  Both collection orders are permutations of the
matched infos, yet the two runs of `Search` return different sequences,
so the result is not independent of the completion order of the
concurrent lookups. -/
theorem c9_search_counterexample :
    List.Perm
        [(⟨str ("ab"), [], []⟩ : PkgInfo), ⟨str ("aa"), [], []⟩]
        ((searchMatches [str ("aa"), str ("ab")] (str ("a"))).map
          (fun n => (⟨n, [], []⟩ : PkgInfo))) ∧
      searchSort (fun _ => 7)
          ((searchMatches [str ("aa"), str ("ab")] (str ("a"))).map
            (fun n => (⟨n, [], []⟩ : PkgInfo)))
        ≠ searchSort (fun _ => 7)
            [(⟨str ("ab"), [], []⟩ : PkgInfo), ⟨str ("aa"), [], []⟩] := by
  constructor
  · decide
  · decide

/-- Claim C9 amended: for every query, a run of `Search` (any collection
order that is a permutation of the matched packages' infos) is sorted
descending (non-strictly) by popularity, unconditionally; and whenever
the matched infos additionally have pairwise distinct popularity, two
runs return the same sequence regardless of the completion order of the
concurrent per-package lookups. -/
theorem c9_search_amended (registry : List Str) (query : Str) (f : Str → PkgInfo)
    (dl : Str → Nat) (c1 c2 : List PkgInfo)
    (h1 : List.Perm c1 ((searchMatches registry query).map f))
    (h2 : List.Perm c2 ((searchMatches registry query).map f)) :
    (searchSort dl c1).Sorted (fun a b => dl b.Name ≤ dl a.Name) ∧
      (((searchMatches registry query).map f).Pairwise
          (fun a b => dl a.Name ≠ dl b.Name) →
        searchSort dl c1 = searchSort dl c2) := by
  refine ⟨sortByKey_sorted _ _, fun hd => ?_⟩
  refine searchSort_eq_of_perm dl c1 c2 (h1.trans h2.symm) ?_
  exact (h1.pairwise_iff (fun h => Ne.symm h)).mpr hd

/-- Witness for amended C9 at a concrete input: two different collection
orders of the matched packages; the run is sorted, and since the
popularities are pairwise distinct the two runs agree. -/
theorem c9_search_witness :
    (searchSort (fun n => if n = str ("aa") then 2 else 1)
        [(⟨str ("ab"), [], []⟩ : PkgInfo), ⟨str ("aa"), [], []⟩]).Sorted
      (fun a b => (fun n => if n = str ("aa") then 2 else 1) b.Name
        ≤ (fun n => if n = str ("aa") then 2 else 1) a.Name) ∧
      (((searchMatches [str ("aa"), str ("ab")] (str ("a"))).map
            (fun n => (⟨n, [], []⟩ : PkgInfo))).Pairwise
          (fun a b => (fun n => if n = str ("aa") then 2 else 1) a.Name
            ≠ (fun n => if n = str ("aa") then 2 else 1) b.Name) →
        searchSort (fun n => if n = str ("aa") then 2 else 1)
            [(⟨str ("ab"), [], []⟩ : PkgInfo), ⟨str ("aa"), [], []⟩]
          = searchSort (fun n => if n = str ("aa") then 2 else 1)
              [(⟨str ("aa"), [], []⟩ : PkgInfo), ⟨str ("ab"), [], []⟩]) :=
  c9_search_amended [str ("aa"), str ("ab")] (str ("a"))
    (fun n => (⟨n, [], []⟩ : PkgInfo))
    (fun n => if n = str ("aa") then 2 else 1)
    [⟨str ("ab"), [], []⟩, ⟨str ("aa"), [], []⟩]
    [⟨str ("aa"), [], []⟩, ⟨str ("ab"), [], []⟩]
    (by decide) (by decide)

/-! ## Specfile listing (`listSpecfile`, `normalizeSpec`) and claim C10 -/

/-- A decoded TOML dependency value as `pyprojectTOML` produces it: a bare
version string, a table (the `map[string]interface{}` case), or any other
decoded value (number, boolean, array, ...). -/
inductive TomlVal where
  | strV (s : Str)
  | tableV (entries : List (Str × TomlVal))
  | otherV

/-- First-match association-list lookup, modelling a Go map read (keys of
a decoded TOML table are unique). -/
def findVal (k : Str) : List (Str × α) → Option α
  | [] => none
  | kv :: rest => if kv.1 = k then some kv.2 else findVal k rest

/-- `normalizeSpec` from `python.go`: the version string from a Poetry
spec, or the empty string.  A string spec is returned as is; a map spec
yields its `"version"` entry when that is a string; anything else yields
the empty string. -/
def normalizeSpec (spec : TomlVal) : Str :=
  match spec with
  | TomlVal.strV s => s
  | TomlVal.tableV es =>
    match findVal (str ("version")) es with
    | some (TomlVal.strV s) => s
    | _ => []
  | TomlVal.otherV => []

/-- Go map assignment `pkgs[name] = spec`: any earlier binding of the key
is replaced. -/
def insertPkg (k v : Str) : List (Str × Str) → List (Str × Str)
  | [] => [(k, v)]
  | kv :: rest => if kv.1 = k then insertPkg k v rest else kv :: insertPkg k v rest

/-- One step of a dependency-group loop of `listSpecfile`: skip the
`python` entry, skip entries whose `normalizeSpec` is empty, record the
rest. -/
def addEntry (acc : List (Str × Str)) (kv : Str × TomlVal) : List (Str × Str) :=
  if kv.1 = str ("python") then acc
  else if normalizeSpec kv.2 = [] then acc
  else insertPkg kv.1 (normalizeSpec kv.2) acc

/-- One dependency-group loop of `listSpecfile`. -/
def addGroup (acc : List (Str × Str)) (group : List (Str × TomlVal)) : List (Str × Str) :=
  group.foldl addEntry acc

/-- `listSpecfile`: the runtime dependency group, then the development
dependency group, folded into one name-to-spec map (TOML decoding itself
is the external collaborator; its two decoded groups are the inputs). -/
def listSpecfile (deps devDeps : List (Str × TomlVal)) : List (Str × Str) :=
  addGroup (addGroup [] deps) devDeps

/-- The dependency-entry shape claim C10 calls well-formed: a string, or a
table containing a string-valued `version` field. -/
def specShapeOk (v : TomlVal) : Bool :=
  match v with
  | TomlVal.strV _ => true
  | TomlVal.tableV es =>
    match findVal (str ("version")) es with
    | some (TomlVal.strV _) => true
    | _ => false
  | TomlVal.otherV => false

theorem addGroup_cons (acc : List (Str × Str)) (kv : Str × TomlVal)
    (g : List (Str × TomlVal)) :
    addGroup acc (kv :: g) = addGroup (addEntry acc kv) g := rfl

theorem normalizeSpec_of_badShape (v : TomlVal) (h : specShapeOk v = false) :
    normalizeSpec v = [] := by
  cases v with
  | strV s => simp [specShapeOk] at h
  | otherV => rfl
  | tableV es =>
    unfold normalizeSpec
    unfold specShapeOk at h
    cases hf : findVal (str ("version")) es with
    | none => simp [hf]
    | some w =>
      cases w <;> simp_all [hf]

theorem findVal_insertPkg_ne (k v q : Str) (l : List (Str × Str)) (h : q ≠ k) :
    findVal q (insertPkg k v l) = findVal q l := by
  induction l with
  | nil =>
    simp [insertPkg, findVal]
    exact fun e => h (Eq.symm e)
  | cons kv rest ih =>
    unfold insertPkg
    split_ifs with hk
    · rw [ih, findVal, if_neg (by rw [hk]; exact fun e => h (Eq.symm e))]
    · unfold findVal
      split_ifs with hq
      · rfl
      · exact ih

theorem findVal_addEntry_python (acc : List (Str × Str)) (kv : Str × TomlVal)
    (h : findVal (str ("python")) acc = none) :
    findVal (str ("python")) (addEntry acc kv) = none := by
  unfold addEntry
  split_ifs with h1 h2
  · exact h
  · exact h
  · rw [findVal_insertPkg_ne _ _ _ _ (fun e => h1 (Eq.symm e))]
    exact h

theorem findVal_addGroup_python (acc : List (Str × Str)) (g : List (Str × TomlVal))
    (h : findVal (str ("python")) acc = none) :
    findVal (str ("python")) (addGroup acc g) = none := by
  induction g generalizing acc with
  | nil => exact h
  | cons kv rest ih =>
    rw [addGroup_cons]
    exact ih _ (findVal_addEntry_python acc kv h)

theorem addGroup_filter_badShape (acc : List (Str × Str)) (g : List (Str × TomlVal)) :
    addGroup acc (g.filter (fun kv => specShapeOk kv.2)) = addGroup acc g := by
  induction g generalizing acc with
  | nil => rfl
  | cons kv rest ih =>
    rw [List.filter_cons]
    by_cases hshape : specShapeOk kv.2 = true
    · rw [if_pos (by simpa using hshape), addGroup_cons, addGroup_cons]
      exact ih _
    · rw [if_neg (by simpa using hshape), addGroup_cons]
      have hstep : addEntry acc kv = acc := by
        unfold addEntry
        split_ifs with h1 h2
        · rfl
        · rfl
        · exact absurd (normalizeSpec_of_badShape kv.2 (by simpa using hshape)) h2
      rw [hstep]
      exact ih acc

/-- Claim C10: for every parsed specfile, the mapping returned by
`listSpecfile` never contains the key `python`, and every dependency
entry (runtime or development) whose version spec is neither a string nor
a map containing a string-valued `version` field is silently dropped:
removing all such entries from the input leaves the result unchanged (and
no error is reported for them, the function being total on decoded
input). -/
theorem c10_listspecfile (deps devDeps : List (Str × TomlVal)) :
    findVal (str ("python")) (listSpecfile deps devDeps) = none ∧
      listSpecfile deps devDeps
        = listSpecfile (deps.filter (fun kv => specShapeOk kv.2))
            (devDeps.filter (fun kv => specShapeOk kv.2)) := by
  constructor
  · exact findVal_addGroup_python _ _ (findVal_addGroup_python _ _ rfl)
  · unfold listSpecfile
    rw [addGroup_filter_badShape, addGroup_filter_badShape]

/-! ## Guess pipeline (`guess` in `python.go`) and claim C4 -/

/-- `modulePragmas`: the optional explicit-package pragma attached to an
imported module (empty string when absent, as in the Go zero value). -/
structure modulePragmas where
  Package : Str

/-- Models `strings.Split(s, ",")`. -/
def splitOnComma : Str → List Str
  | [] => [[]]
  | c :: rest =>
    if c = 44 then [] :: splitOnComma rest
    else
      match splitOnComma rest with
      | [] => [[c]]
      | g :: gs => (c :: g) :: gs

/-- Stage 1 of `guess`: the availability set.  A module is available when
some package of the parsed specfile maps, in the registry's
package-to-modules table (`pypiPackageToModules`), to a comma-separated
module list containing it. -/
def computeAvail (specPkgs : List (Str × Str)) (p2m : Str → Option Str) (m : Str) : Bool :=
  specPkgs.any (fun kv =>
    match p2m kv.1 with
    | some mods => (splitOnComma mods).any (fun x => x == m)
    | none => false)

/-- Go set insertion `pkgs[name] = true`. -/
def insertSet (x : Str) (l : List Str) : List Str := if x ∈ l then l else l ++ [x]

/-- One iteration of the `guess` result loop: skip available modules,
otherwise use the pragma package if present, otherwise consult the
registry's module-to-package table (`moduleToPypiPackage`); selected
names are normalized. -/
def guessStep (availMods : Str → Bool) (m2p : Str → Option Str)
    (acc : List Str) (e : Str × modulePragmas) : List Str :=
  if availMods e.1 = true then acc
  else if e.2.Package ≠ [] then insertSet (normalizePackageName e.2.Package) acc
  else
    match m2p e.1 with
    | some pkg => insertSet (normalizePackageName pkg) acc
    | none => acc

/-- Stage 2 of `guess`: the inferred package set, as the fold of
`guessStep` over the extracted imports. -/
def guessCollect (availMods : Str → Bool) (m2p : Str → Option Str)
    (imports : List (Str × modulePragmas)) : List Str :=
  imports.foldl (guessStep availMods m2p) []

theorem foldl_guessStep_skip (availMods : Str → Bool) (m2p : Str → Option Str) (m : Str)
    (hm : availMods m = true) (imports : List (Str × modulePragmas))
    (acc : List Str) :
    imports.foldl (guessStep availMods m2p) acc
      = (imports.filter (fun e => !(e.1 == m))).foldl (guessStep availMods m2p) acc := by
  induction imports generalizing acc with
  | nil => rfl
  | cons e rest ih =>
    rw [List.foldl_cons, List.filter_cons]
    by_cases he : e.1 = m
    · have hskip : guessStep availMods m2p acc e = acc := by
        unfold guessStep
        rw [he, hm]
        simp
      rw [hskip, if_neg (by simp [he])]
      exact ih acc
    · rw [if_pos (by simp [he]), List.foldl_cons]
      exact ih _

/-- Claim C4: a module already supplied by a package declared in the
specfile (per `listSpecfile` and the registry's package-to-modules
mapping) never contributes a suggestion to the `guess` result: deleting
all its import entries — whatever pragma they carry and whatever registry
candidate the module has — leaves the result unchanged. -/
theorem c4_guess_skips_available (deps devDeps : List (Str × TomlVal))
    (p2m m2p : Str → Option Str) (imports : List (Str × modulePragmas)) (m : Str)
    (h : computeAvail (listSpecfile deps devDeps) p2m m = true) :
    guessCollect (computeAvail (listSpecfile deps devDeps) p2m) m2p imports
      = guessCollect (computeAvail (listSpecfile deps devDeps) p2m) m2p
          (imports.filter (fun e => !(e.1 == m))) := by
  unfold guessCollect
  exact foldl_guessStep_skip _ m2p m h imports []

/-- Witness for C4 at a concrete input: package `foo` is declared in the
specfile and provides module `bar`; an import of `bar` carrying an
explicit pragma and a registry candidate still contributes nothing. -/
theorem c4_guess_skips_available_witness :
    guessCollect
        (computeAvail (listSpecfile [(str ("foo"), TomlVal.strV (str ("1.0")))] [])
          (fun k => if k == str ("foo") then some (str ("bar,baz")) else none))
        (fun k => if k == str ("bar") then some (str ("barpkg")) else none)
        [(str ("bar"), ⟨str ("PragmaPkg")⟩)]
      = guessCollect
          (computeAvail (listSpecfile [(str ("foo"), TomlVal.strV (str ("1.0")))] [])
            (fun k => if k == str ("foo") then some (str ("bar,baz")) else none))
          (fun k => if k == str ("bar") then some (str ("barpkg")) else none)
          ([(str ("bar"), ⟨str ("PragmaPkg")⟩)].filter (fun e => !(e.1 == str ("bar")))) :=
  c4_guess_skips_available [(str ("foo"), TomlVal.strV (str ("1.0")))] []
    (fun k => if k == str ("foo") then some (str ("bar,baz")) else none)
    (fun k => if k == str ("bar") then some (str ("barpkg")) else none)
    [(str ("bar"), ⟨str ("PragmaPkg")⟩)] (str ("bar")) (by decide)
